import Mathlib

/-!
Verification of the feedback ingestion / batch-annotation pipeline of the
sentiment-analysis-infrastructure backend.

The definitions below are a shallow embedding of the Python sources under
`backend/app/`.  The persistent store (`content` table, SQLAlchemy) is a list
of rows together with the auto-increment counter for the primary key; rows are
kept in insertion order, which is the order the un-ordered SQLAlchemy queries
return on the SQLite backend used by the app.  Timestamps are modelled as
natural-number ticks, numeric scores as rationals.  The external ML/LLM
services (Gemini, roberta sentiment model, back-translation, embedding
similarity) are black-box collaborators and appear as function parameters.
-/

namespace SentimentInfra

/-! ## Character-list implementations of the Python string primitives

The embedding works on `String.data` so that every operation reduces inside
the kernel; each helper mirrors the corresponding Python `str` method. -/

/-- `pat.isPrefixOf l` at some position of `l`: Python `pat in s` for a
non-empty `pat`. -/
def listHasSub (pat : List Char) : List Char → Bool
  | [] => false
  | c :: rest => pat.isPrefixOf (c :: rest) || listHasSub pat rest

/-- Python `pat in s` (the patterns used by the sources are non-empty). -/
def strContains (s pat : String) : Bool :=
  listHasSub pat.data s.data

/-- Python `s.strip()`: drop whitespace from both ends. -/
def strTrim (s : String) : String :=
  ⟨((s.data.dropWhile Char.isWhitespace).reverse.dropWhile Char.isWhitespace).reverse⟩

/-- Python `s.lower()`. -/
def strToLower (s : String) : String :=
  ⟨s.data.map Char.toLower⟩

/-- Python `s[:n]`. -/
def strTake (s : String) (n : Nat) : String :=
  ⟨s.data.take n⟩

/-- Python `s.endswith(pat)`. -/
def strEndsWith (s pat : String) : Bool :=
  pat.data.reverse.isPrefixOf s.data.reverse

/-- Python `s.rstrip("/")`. -/
def strRStripSlash (s : String) : String :=
  ⟨(s.data.reverse.dropWhile (· = '/')).reverse⟩

/-- Left-to-right non-overlapping replacement, fuelled by the list length. -/
def listReplace (pat rep : List Char) : Nat → List Char → List Char
  | 0, l => l
  | _, [] => []
  | fuel + 1, c :: rest =>
    if pat.isPrefixOf (c :: rest) && !pat.isEmpty then
      rep ++ listReplace pat rep fuel ((c :: rest).drop pat.length)
    else c :: listReplace pat rep fuel rest

/-- Python `s.replace(pat, rep)` for non-empty `pat`. -/
def strReplace (s pat rep : String) : String :=
  ⟨listReplace pat.data rep.data s.data.length s.data⟩

/-- A stored feedback row, mirroring the declared columns of the active
`Content` model in `backend/app/models/content.py`.  The model declares *no*
`confidence_score` and *no* `category` column; `raw_metadata` is an opaque
JSON payload never inspected by the code under verification and is omitted. -/
structure Content where
  id : Nat
  source : String
  source_ref : String
  original_text : String
  original_language : Option String
  translated_text : Option String
  aspect : Option String
  sentiment : Option String
  is_processed : Bool
  processed_at : Option Nat
  timestamp : String
  location_name : Option String
  created_at : Nat
deriving DecidableEq

/-- The content store: rows in insertion order plus the auto-increment
primary-key counter. -/
structure DB where
  rows : List Content
  next_id : Nat
deriving DecidableEq

/-- One element of the JSON array returned by the batch annotation call, as
consumed by `process_unprocessed_content` via `result.get(...)`: every field
access can yield `None` when the key is absent. -/
structure AnnotationResult where
  detected_language : Option String
  translated_text : Option String
  aspect : Option String
  sentiment : Option String
  confidence_score : Option ℚ
  category : Option String
deriving DecidableEq

/-! ## Batch annotation scheduler — `services/processing/llm_pipeline.py` -/

/-- `BATCH_SIZE` from `llm_pipeline.py`. -/
def BATCH_SIZE : Nat := 5

/-- The field updates of the loop body in `process_unprocessed_content`
(lines 27–36).  The source also assigns `record.category` and
`record.confidence_score`, but the `Content` model declares no such columns,
so nothing is persisted for them and they do not appear on the stored row. -/
def applyResult (c : Content) (r : AnnotationResult) (now : Nat) : Content :=
  { c with
    original_language := r.detected_language
    translated_text := r.translated_text
    aspect := r.aspect
    sentiment := r.sentiment
    is_processed := true
    processed_at := some now }

/-- The query of `process_unprocessed_content` lines 11–16:
`filter(is_processed == False).limit(BATCH_SIZE)`. -/
def fetchUnprocessed (db : DB) : List Content :=
  (db.rows.filter fun c => c.is_processed = false).take BATCH_SIZE

/-- Row update performed by the commit: each record of the zipped pairs is
written back (matched here by primary key), all other rows are untouched. -/
def updateRows (rows : List Content) (pairs : List (Content × AnnotationResult))
    (now : Nat) : List Content :=
  rows.map fun c =>
    match pairs.find? (fun p => p.1.id = c.id) with
    | some p => applyResult p.1 p.2 now
    | none => c

/-- `process_unprocessed_content` from `llm_pipeline.py`.  The reply of the
external call `analyze_batch_with_llm(texts)` is the `results` parameter.
`if not results` is falsy for both `None` and the empty list.  The source zips
`records` with `results` — `zip` silently truncates to the shorter of the two
lists; there is no length comparison. -/
def processUnprocessedContent (db : DB) (results : Option (List AnnotationResult))
    (now : Nat) : DB × String :=
  let records := fetchUnprocessed db
  match results with
  | none => (db, "Error processing batch")
  | some rs =>
    if rs.isEmpty then (db, "Error processing batch")
    else
      let pairs := records.zip rs
      ({ db with rows := updateRows db.rows pairs now }, "Processing complete")

/-- Modelled from the spec: the batch annotation client `analyze_batch_with_llm`
is imported by `llm_pipeline.py` from `services/llm/client.py` but absent from
the sources (only its callers appear).  Per spec §4.3 it returns either `none`
(whole-batch failure) or exactly one result per input text, in input order,
each carrying all six annotation fields. -/
def clientContract (texts : List String) (res : Option (List AnnotationResult)) : Prop :=
  ∀ rs, res = some rs →
    rs.length = texts.length ∧
    ∀ r ∈ rs, r.detected_language.isSome ∧ r.translated_text.isSome ∧
      r.aspect.isSome ∧ r.sentiment.isSome ∧ r.confidence_score.isSome ∧
      r.category.isSome

/-! ## Ingestion — `services/ingestion/reddit.py`, `services/ingestion/youtube.py` -/

/-- A raw item handed from the Reddit scraper to the store writer (the dict
built in `services/scraping/reddit.py`; the constant `None`/`False` annotation
fields of that dict are re-established by the store writer and omitted here,
and the opaque `raw_metadata` sub-dict is omitted). -/
structure RawRow where
  source : String
  source_ref : String
  original_text : String
  timestamp : String
  created_at : Nat
deriving DecidableEq

/-- The existence check of `ingest_reddit_to_db` lines 30–37: an item with
`source == "reddit"` and the same `original_text`. -/
def redditExists (rows : List Content) (text : String) : Bool :=
  rows.any fun c => c.source = "reddit" && c.original_text = text

/-- The `Content(...)` insert of `ingest_reddit_to_db` lines 42–62, with the
auto-increment primary key assigned at flush. -/
def insertFromRow (db : DB) (row : RawRow) : DB :=
  { rows := db.rows ++ [{
      id := db.next_id
      source := row.source
      source_ref := row.source_ref
      original_text := row.original_text
      original_language := none
      translated_text := none
      aspect := none
      sentiment := none
      is_processed := false
      processed_at := none
      timestamp := row.timestamp
      location_name := none
      created_at := row.created_at }]
    next_id := db.next_id + 1 }

/-- `ingest_reddit_to_db` from `services/ingestion/reddit.py`, with the rows
produced by the scraper passed in (the scrape itself is a collaborator).
Returns the new store and the `inserted` count.  The session autoflushes, so
the dedup query sees rows added earlier in the same call. -/
def redditStep (acc : DB × Nat) (row : RawRow) : DB × Nat :=
  if redditExists acc.1.rows row.original_text then acc
  else (insertFromRow acc.1 row, acc.2 + 1)

def ingestRedditToDb (db : DB) (rows : List RawRow) : DB × Nat :=
  if rows.isEmpty then (db, 0)
  else rows.foldl redditStep (db, 0)

/-- A scraped YouTube comment as consumed by `ingest_youtube_video`
(`original_text` and `timestamp`; the likes string in `raw_metadata` is
opaque and omitted). -/
structure YtComment where
  original_text : String
  timestamp : String
deriving DecidableEq

/-- `ingest_youtube_video` from `services/ingestion/youtube.py`, with the
scraper output passed in.  Every comment is inserted unconditionally — there
is no existence check; `is_processed`/`processed_at` and the annotation
columns take their model defaults. -/
def youtubeStep (videoUrl : String) (locationName : Option String) (now : Nat)
    (acc : DB × Nat) (c : YtComment) : DB × Nat :=
  ({ rows := acc.1.rows ++ [{
       id := acc.1.next_id
       source := "youtube"
       source_ref := videoUrl
       original_text := c.original_text
       original_language := none
       translated_text := none
       aspect := none
       sentiment := none
       is_processed := false
       processed_at := none
       timestamp := c.timestamp
       location_name := locationName
       created_at := now }]
     next_id := acc.1.next_id + 1 }, acc.2 + 1)

def ingestYoutubeVideo (db : DB) (comments : List YtComment) (videoUrl : String)
    (locationName : Option String) (now : Nat) : DB × Nat :=
  comments.foldl (youtubeStep videoUrl locationName now) (db, 0)

/-! ## Administrative purge — `api/routers/manage_database.py` -/

/-- `delete_unprocessed` from `manage_database.py`: counts and deletes the
rows with the given `source_ref` and `is_processed == False`, then reports the
deleted count and the total row count for that `source_ref` after deletion. -/
def deleteUnprocessed (db : DB) (sourceRef : String) : DB × Nat × Nat :=
  let deleted := (db.rows.filter fun c =>
    c.source_ref = sourceRef && c.is_processed = false).length
  let rows2 := db.rows.filter fun c =>
    !(c.source_ref = sourceRef && c.is_processed = false)
  let remaining := (rows2.filter fun c => c.source_ref = sourceRef).length
  ({ db with rows := rows2 }, deleted, remaining)

/-! ## Python `round` on exact values -/

/-- `⌊q⌋` computed on the normalised representation (the denominator is
positive, so flooring division of the numerator is the floor). -/
def ratFloor (q : ℚ) : ℤ := Int.fdiv q.num q.den

/-- Round to the nearest integer, ties to the even integer — the documented
behaviour of Python's built-in `round`. -/
def roundHalfEven (q : ℚ) : ℤ :=
  let f : ℤ := ratFloor q
  let r : ℚ := q - f
  if r < 1 / 2 then f
  else if 1 / 2 < r then f + 1
  else if f % 2 = 0 then f else f + 1

/-- `round(q, d)` on an exact rational value. -/
def pyRound (q : ℚ) (d : Nat) : ℚ :=
  (roundHalfEven (q * 10 ^ d) : ℚ) / 10 ^ d

/-! ## Independent sentiment classifier — `services/nlp/sentiment.py` -/

/-- The `{"sentiment": ..., "confidence": ...}` dict of `predict_sentiment`. -/
structure SentimentOut where
  sentiment : String
  confidence : ℚ
deriving DecidableEq

/-- `LABELS` from `sentiment.py`. -/
def LABELS : List String := ["Negative", "Neutral", "Positive"]

/-- `numpy.argmax` over the three class probabilities: the first index of the
maximum. -/
def argmax3 (a b c : ℚ) : Nat :=
  if a < b then (if b < c then 2 else 1) else (if a < c then 2 else 0)

/-- `predict_sentiment` from `sentiment.py`.  The roberta model (tokenizer,
forward pass, softmax) is a black-box collaborator given as the `probs`
parameter returning the three class probabilities for a text.  Blank input
(`not text or not text.strip()`) short-circuits to Neutral/0.0 before the
model is consulted. -/
def predict_sentiment (probs : String → ℚ × ℚ × ℚ) (text : String) : SentimentOut :=
  if text = "" || strTrim text = "" then { sentiment := "Neutral", confidence := 0 }
  else
    let p := probs text
    let idx := argmax3 p.1 p.2.1 p.2.2
    { sentiment := LABELS.getD idx ""
      confidence := if idx = 0 then p.1 else if idx = 1 then p.2.1 else p.2.2 }

/-! ## Sentiment agreement — `services/analytics/sentiment_agreement.py` -/

/-- One entry of `mismatch_samples`. -/
structure MismatchSample where
  id : Nat
  llm_sentiment : String
  model_sentiment : String
  text : String
deriving DecidableEq

/-- The report dict returned by `llm_vs_model_sentiment`; `match_count` and
`mismatch_count` are the `"matches"` / `"mismatches"` keys of the source dict
(`matches` is reserved syntax here). -/
structure AgreementReport where
  total_samples : Nat
  match_count : Nat
  mismatch_count : Nat
  agreement_percentage : ℚ
  sample_mismatches : List MismatchSample
deriving DecidableEq

/-- The record query of `llm_vs_model_sentiment` lines 7–13: translated text
and sentiment both non-null. -/
def eligibleAgreement (db : DB) : List Content :=
  db.rows.filter fun c => c.translated_text.isSome && c.sentiment.isSome

/-- The loop body of `llm_vs_model_sentiment` lines 25–42, folding the
counters and the mismatch sample list over the records. -/
def agreementStep (probs : String → ℚ × ℚ × ℚ)
    (st : Nat × Nat × Nat × List MismatchSample) (c : Content) :
    Nat × Nat × Nat × List MismatchSample :=
  if (predict_sentiment probs (c.translated_text.getD "")).sentiment =
      c.sentiment.getD "" then
    (st.1 + 1, st.2.1 + 1, st.2.2.1, st.2.2.2)
  else
    (st.1 + 1, st.2.1, st.2.2.1 + 1,
      st.2.2.2 ++ [{
        id := c.id
        llm_sentiment := c.sentiment.getD ""
        model_sentiment := (predict_sentiment probs (c.translated_text.getD "")).sentiment
        text := strTake (c.translated_text.getD "") 200 }])

/-- `llm_vs_model_sentiment` from `sentiment_agreement.py`.  `if limit:` is
Python truthiness, so `None` and `0` both leave the query uncapped. -/
def llm_vs_model_sentiment (db : DB) (limit : Option Nat)
    (probs : String → ℚ × ℚ × ℚ) : AgreementReport :=
  let records :=
    match limit with
    | some l => if l ≠ 0 then (eligibleAgreement db).take l else eligibleAgreement db
    | none => eligibleAgreement db
  let st := records.foldl (agreementStep probs) (0, 0, 0, [])
  { total_samples := st.1
    match_count := st.2.1
    mismatch_count := st.2.2.1
    agreement_percentage :=
      if 0 < st.1 then pyRound ((st.2.1 : ℚ) / (st.1 : ℚ) * 100) 2 else 0
    sample_mismatches := st.2.2.2.take 5 }

/-! ## Translation consistency — `services/analytics/translation_consistency.py` -/

/-- `LANGUAGE_MAP` from `translation_consistency.py`. -/
def LANGUAGE_MAP : List (String × String) :=
  [("Marathi", "mr"), ("Bengali", "bn"), ("Kannada", "kn")]

/-- One entry of a per-language `samples` list. -/
structure LangSample where
  content_id : Nat
  similarity : ℚ
deriving DecidableEq

/-- The per-language report dict. -/
structure LangReport where
  count : Nat
  average_similarity : ℚ
  samples : List LangSample
deriving DecidableEq

/-- The per-language query of `translation_consistency_check` lines 18–27
before the `.limit(2)`: matching original language, translated text present.
The `original_text.isnot(None)` conjunct is trivial here because every
ingestion path writes `original_text` (modelled as a plain `String`). -/
def eligibleForLang (db : DB) (lang : String) : List Content :=
  db.rows.filter fun c => c.original_language = some lang && c.translated_text.isSome

/-- `translation_consistency_check` from `translation_consistency.py`.  The
back-translation call and the embedding cosine similarity are black-box
collaborators given as the `translate` and `cosSim` parameters. -/
def translation_consistency_check (db : DB) (translate : String → String → String)
    (cosSim : String → String → ℚ) : List (String × LangReport) :=
  LANGUAGE_MAP.map fun lc =>
    let records := (eligibleForLang db lc.1).take 2
    let samples := records.map fun r =>
      let back := translate (r.translated_text.getD "") lc.2
      ({ content_id := r.id, similarity := pyRound (cosSim r.original_text back) 4 }
        : LangSample)
    let avg : ℚ :=
      if samples.isEmpty then 0
      else (samples.map LangSample.similarity).sum / (samples.length : ℚ)
    (lc.1, { count := samples.length
             average_similarity := pyRound avg 4
             samples := samples })

/-! ## Reddit comment-tree scraper — `services/scraping/reddit.py` -/

mutual
/-- A node of the Reddit listing consumed by `ingest_reddit_post`: the `kind`
tag and, from its `data` dict, the fields the extractor reads.  `body` and
`author` are `Option` because `data.get` can yield `None`/use a default;
`distinguished`/`stickied` record the truthiness of those keys;
`created_utc` is the payload of `str(data.get("created_utc"))`.  Replies are
the child list (an absent or empty-string `replies` key is the empty list). -/
inductive RNode where
  | mk (kind : String) (body : Option String) (author : Option String)
      (distinguished : Bool) (stickied : Bool) (created_utc : String)
      (replies : RForest) : RNode

/-- A list of sibling nodes (`children` array). -/
inductive RForest where
  | nil : RForest
  | cons (n : RNode) (f : RForest) : RForest
end

/-- Python `needle in haystack` on strings. -/
def containsSub (s pat : String) : Bool :=
  strContains s pat

/-- `is_valid_comment` from `reddit.py` lines 19–34.  Its `body` argument is
the *lowercased* body, exactly as in the source (`data.get("body","").lower()`);
note the emptiness test is on this un-trimmed string. -/
def is_valid_comment (body : String) (author : Option String)
    (distinguished stickied : Bool) : Bool :=
  if body = "" then false
  else if author = some "AutoModerator" then false
  else if containsSub body "i am a bot" then false
  else if distinguished then false
  else if stickied then false
  else true

/-- The row dict appended by `extract` (lines 46–75) for a deduplicated valid
comment with (trimmed) text `text`. -/
def mkRedditRow (sourceRef : String) (now : Nat) (text : String)
    (createdUtc : String) : RawRow :=
  { source := "reddit"
    source_ref := sourceRef
    original_text := text
    timestamp := createdUtc
    created_at := now }

mutual
/-- `extract` from `reddit.py` lines 36–81: depth-first walk threading the
accumulated rows and the `seen` text set; a node whose `kind` is not `"t1"`
returns immediately (pruning its subtree), a valid unseen comment appends its
trimmed body, and the replies are visited in order regardless of validity. -/
def extractNode (sourceRef : String) (now : Nat) (node : RNode)
    (st : List RawRow × List String) : List RawRow × List String :=
  match node with
  | .mk kind body author distinguished stickied createdUtc replies =>
    if kind ≠ "t1" then st
    else
      let bodyStr := body.getD ""
      let st1 :=
        if is_valid_comment (strToLower bodyStr) author distinguished stickied then
          let text := strTrim bodyStr
          if st.2.contains text then st
          else (st.1 ++ [mkRedditRow sourceRef now text createdUtc], st.2 ++ [text])
        else st
      extractForest sourceRef now replies st1

/-- The `for child in replies` loop. -/
def extractForest (sourceRef : String) (now : Nat) (f : RForest)
    (st : List RawRow × List String) : List RawRow × List String :=
  match f with
  | .nil => st
  | .cons n rest => extractForest sourceRef now rest (extractNode sourceRef now n st)
end

/-- `ingest_reddit_post` from `reddit.py`, with the already-fetched top-level
`children` forest passed in (the HTTP fetch is a collaborator).  The URL is
normalised to its `.json` form for the request and the `source_ref` on each
row strips `".json"` back out, as in lines 9–10 and 48. -/
def ingestRedditPost (postUrl : String) (topChildren : RForest) (now : Nat) :
    List RawRow :=
  let urlJson :=
    if strEndsWith postUrl ".json" then postUrl
    else strRStripSlash postUrl ++ ".json"
  let sourceRef := strReplace urlJson ".json" ""
  (extractForest sourceRef now topChildren ([], [])).1

mutual
/-- Every node of the tree is a `"t1"` comment node (the claims' well-formed
comment-tree payloads). -/
def wfNode : RNode → Bool
  | .mk kind _ _ _ _ _ replies => kind = "t1" && wfForest replies

/-- `wfNode` on every sibling. -/
def wfForest : RForest → Bool
  | .nil => true
  | .cons n rest => wfNode n && wfForest rest
end

mutual
/-- The claim's emission walk, parameterised by the node-validity predicate:
depth-first, children always visited, a valid node's trimmed body emitted
unless already emitted.  The state is (emitted texts, seen texts). -/
def specWalkNode (valid : RNode → Bool) (node : RNode)
    (st : List String × List String) : List String × List String :=
  match node with
  | .mk _ body _ _ _ _ replies =>
    let text := strTrim (body.getD "")
    let st1 :=
      if valid node then
        if st.2.contains text then st
        else (st.1 ++ [text], st.2 ++ [text])
      else st
    specWalkForest valid replies st1

/-- Sibling traversal of the claim's emission walk. -/
def specWalkForest (valid : RNode → Bool) (f : RForest)
    (st : List String × List String) : List String × List String :=
  match f with
  | .nil => st
  | .cons n rest => specWalkForest valid rest (specWalkNode valid n st)
end

/-- The claim's validity predicate, word for word: body non-empty **after
trimming**, author not a known bot account, not moderator-distinguished, not
stickied, no bot-disclaimer phrase in the body. -/
def claimValid : RNode → Bool
  | .mk _ body author distinguished stickied _ _ =>
    strTrim (body.getD "") ≠ "" && author ≠ some "AutoModerator" &&
      !containsSub (strToLower (body.getD "")) "i am a bot" &&
      !distinguished && !stickied

/-- The validity predicate the source actually applies: identical to
`claimValid` except that the body is required non-empty **before** trimming
(`if not body` on the untrimmed, lowercased string). -/
def codeValid : RNode → Bool
  | .mk _ body author distinguished stickied _ _ =>
    body.getD "" ≠ "" && author ≠ some "AutoModerator" &&
      !containsSub (strToLower (body.getD "")) "i am a bot" &&
      !distinguished && !stickied

/-! ## Spec-side renderings used for comparison with the code -/

/-- Chunking worker, fuelled by the list length so that it reduces. -/
def chunksOfAux {α : Type} (n : Nat) : Nat → List α → List (List α)
  | 0, _ => []
  | _, [] => []
  | fuel + 1, x :: xs => (x :: xs).take n :: chunksOfAux n fuel ((x :: xs).drop n)

/-- Partition a list into consecutive chunks of `n` (the spec's step 2). -/
def chunksOf {α : Type} (n : Nat) (l : List α) : List (List α) :=
  if n = 0 then [] else chunksOfAux n l.length l

/-- Modelled from the spec (§4.4): the scheduler algorithm as the spec words
it — fetch **all** unprocessed items, partition them into `BATCH_SIZE` chunks,
call the annotation client per chunk, skip a chunk whose call fails or whose
result count mismatches, and mark every item of a successful chunk.  The
client is the `oracle` parameter.  (The source `process_unprocessed_content`
instead fetches at most `BATCH_SIZE` items in total; this definition exists to
be compared against it.) -/
def specSchedulerRun (db : DB)
    (oracle : List String → Option (List AnnotationResult)) (now : Nat) : DB :=
  let records := db.rows.filter fun c => c.is_processed = false
  (chunksOf BATCH_SIZE records).foldl
    (fun acc chunk =>
      match oracle (chunk.map Content.original_text) with
      | none => acc
      | some rs =>
        if rs.length ≠ chunk.length then acc
        else { acc with rows := updateRows acc.rows (chunk.zip rs) now })
    db

/-- The spec's FeedbackItem (§3): six annotation fields plus the processing
state. -/
structure SpecFeedbackItem where
  detected_language : Option String
  translated_text : Option String
  aspect : Option String
  sentiment : Option String
  confidence_score : Option ℚ
  category : Option String
  is_processed : Bool
  processed_at : Option Nat
deriving DecidableEq

/-- The spec's view of a persisted row.  The active `Content` model in
`models/content.py` declares no `confidence_score` and no `category` column,
so the stored row carries no value for either: the view is `none` there. -/
def specView (c : Content) : SpecFeedbackItem :=
  { detected_language := c.original_language
    translated_text := c.translated_text
    aspect := c.aspect
    sentiment := c.sentiment
    confidence_score := none
    category := none
    is_processed := c.is_processed
    processed_at := c.processed_at }

/-! ## Reachable stores -/

/-- The per-row state-machine invariant: the processing flag, the timestamp
and the four persisted annotation columns move together. -/
def annotationOK (c : Content) : Prop :=
  (c.is_processed = true ↔ c.processed_at.isSome = true) ∧
  (c.is_processed = true →
    c.original_language.isSome ∧ c.translated_text.isSome ∧
      c.aspect.isSome ∧ c.sentiment.isSome) ∧
  (c.is_processed = false →
    c.original_language = none ∧ c.translated_text = none ∧
      c.aspect = none ∧ c.sentiment = none)

instance (c : Content) : Decidable (annotationOK c) := by
  unfold annotationOK; infer_instance

/-- Stores reachable from an empty database by the operations of the
repository: Reddit ingestion, YouTube ingestion, a scheduler run whose client
reply honours the spec contract of `analyze_batch_with_llm`, and the
administrative purge. -/
inductive Reachable : DB → Prop where
  | init : Reachable { rows := [], next_id := 1 }
  | reddit (db : DB) (rows : List RawRow) :
      Reachable db → Reachable (ingestRedditToDb db rows).1
  | youtube (db : DB) (comments : List YtComment) (videoUrl : String)
      (locationName : Option String) (now : Nat) :
      Reachable db →
      Reachable (ingestYoutubeVideo db comments videoUrl locationName now).1
  | process (db : DB) (res : Option (List AnnotationResult)) (now : Nat) :
      Reachable db →
      clientContract ((fetchUnprocessed db).map Content.original_text) res →
      Reachable (processUnprocessedContent db res now).1
  | purge (db : DB) (sourceRef : String) :
      Reachable db → Reachable (deleteUnprocessed db sourceRef).1

/-- Primary keys are pairwise distinct — true of every store the database
produces, since `id` is the auto-increment primary key. -/
def NoDupIds (db : DB) : Prop := (db.rows.map Content.id).Nodup

instance (db : DB) : Decidable (NoDupIds db) := by
  unfold NoDupIds; infer_instance

/-! ## Concrete data used in counterexamples and witnesses -/

/-- A fresh, unprocessed row as ingestion writes it. -/
def unprocItem (i : Nat) (text : String) : Content :=
  { id := i
    source := "reddit"
    source_ref := "https://example.org/p"
    original_text := text
    original_language := none
    translated_text := none
    aspect := none
    sentiment := none
    is_processed := false
    processed_at := none
    timestamp := "0"
    location_name := none
    created_at := 0 }

/-- A processed row with the given stored sentiment and translated text. -/
def procItem (i : Nat) (sent tt : String) : Content :=
  { unprocItem i tt with
    original_language := some "Hindi"
    translated_text := some tt
    aspect := some "Roads"
    sentiment := some sent
    is_processed := true
    processed_at := some 1 }

/-- A complete annotation result, as the spec's client contract delivers. -/
def fullResult (t : String) : AnnotationResult :=
  { detected_language := some "Hindi"
    translated_text := some t
    aspect := some "Roads"
    sentiment := some "Negative"
    confidence_score := some (9 / 10)
    category := some "Complaint" }

/-- Two unprocessed items (the chunk for the C1 counterexample). -/
def exDB2 : DB := { rows := [unprocItem 1 "a", unprocItem 2 "b"], next_id := 3 }

/-- Six unprocessed items (one more than `BATCH_SIZE`). -/
def exDB6 : DB :=
  { rows := [unprocItem 1 "a", unprocItem 2 "b", unprocItem 3 "c",
      unprocItem 4 "d", unprocItem 5 "e", unprocItem 6 "f"]
    next_id := 7 }

/-- An always-succeeding annotation client: one complete result per text. -/
def exOracle (texts : List String) : Option (List AnnotationResult) :=
  some (texts.map fullResult)

/-- A classifier that always answers Positive with certainty. -/
def alwaysPositive : String → ℚ × ℚ × ℚ := fun _ => (0, 0, 1)

/-- Ten processed items of which seven carry the stored sentiment Positive:
against `alwaysPositive` this yields 7 matches out of 10. -/
def agreeDB : DB :=
  { rows := [procItem 1 "Positive" "t1", procItem 2 "Positive" "t2",
      procItem 3 "Positive" "t3", procItem 4 "Positive" "t4",
      procItem 5 "Positive" "t5", procItem 6 "Positive" "t6",
      procItem 7 "Positive" "t7", procItem 8 "Negative" "t8",
      procItem 9 "Negative" "t9", procItem 10 "Negative" "t10"]
    next_id := 11 }

/-- Three unprocessed and two processed items for one source_ref. -/
def purgeDB : DB :=
  { rows := [unprocItem 1 "a", unprocItem 2 "b", unprocItem 3 "c",
      procItem 4 "Positive" "d", procItem 5 "Negative" "e"]
    next_id := 6 }

/-- One scraped YouTube comment. -/
def exComment : YtComment := { original_text := "nice road", timestamp := "1 day ago" }

/-- One raw Reddit row. -/
def exRawRow : RawRow :=
  { source := "reddit"
    source_ref := "https://example.org/p"
    original_text := "potholes everywhere"
    timestamp := "0"
    created_at := 0 }

/-- A single comment whose body is whitespace only. -/
def wsTree : RForest :=
  .cons (.mk "t1" (some " ") (some "alice") false false "0" .nil) .nil

/-- The spec's synthetic tree-extraction scenario: one bot comment, one
moderator-distinguished comment, one duplicate-text comment and two valid
comments, nested. -/
def exTree : RForest :=
  .cons
    (.mk "t1" (some "roads are flooded") (some "alice") false false "0"
      (.cons (.mk "t1" (some "I am a bot, beep") (some "AutoModerator") false false "1" .nil)
        (.cons (.mk "t1" (some "stay on topic") (some "mod") true false "2"
          (.cons (.mk "t1" (some "roads are flooded") (some "bob") false false "3" .nil)
            (.cons (.mk "t1" (some "no streetlights here") (some "carol") false false "4" .nil)
              .nil)))
          .nil)))
    .nil

/-- The store left by ingesting one Reddit row into an empty database and
running the scheduler once with a complete single-item reply. -/
def processedOnceDB : DB :=
  (processUnprocessedContent (ingestRedditToDb { rows := [], next_id := 1 } [exRawRow]).1
    (some [fullResult "Potholes everywhere."]) 5).1

/-! # Theorems -/

/-! ## Rounding helpers -/

theorem ratFloor_intCast (z : ℤ) : ratFloor (z : ℚ) = z := by
  unfold ratFloor
  rw [Rat.num_intCast, Rat.den_intCast]
  simp

theorem roundHalfEven_intCast (z : ℤ) : roundHalfEven (z : ℚ) = z := by
  unfold roundHalfEven
  rw [ratFloor_intCast]
  simp only []
  have h : (z : ℚ) - (z : ℚ) = 0 := by ring
  rw [h]
  norm_num

theorem pyRound_intCast (z : ℤ) (d : Nat) : pyRound (z : ℚ) d = z := by
  unfold pyRound
  have h : ((z : ℚ)) * 10 ^ d = ((z * 10 ^ d : ℤ) : ℚ) := by push_cast; ring
  rw [h, roundHalfEven_intCast]
  have hd : ((10 : ℚ)) ^ d ≠ 0 := by positivity
  push_cast
  field_simp

theorem pyRound_zero (d : Nat) : pyRound 0 d = 0 := by
  have h := pyRound_intCast 0 d
  simpa using h

/-! ## Claim C10 — blank-input short-circuit of the sentiment classifier -/

theorem getD_argmax3_mem (a b c : ℚ) : LABELS.getD (argmax3 a b c) "" ∈ LABELS := by
  unfold argmax3 LABELS
  split <;> split <;> simp

/-- Claim C10: on empty or whitespace-only input, `predict_sentiment` returns
exactly Neutral/0.0 without consulting the model (the result is the same for
every `probs`); on any other input the returned sentiment is one of the three
labels Negative/Neutral/Positive. -/
theorem predict_sentiment_blank_neutral_else_label (probs : String → ℚ × ℚ × ℚ)
    (text : String) :
    ((text = "" ∨ strTrim text = "") →
      predict_sentiment probs text = { sentiment := "Neutral", confidence := 0 }) ∧
    (¬(text = "" ∨ strTrim text = "") →
      (predict_sentiment probs text).sentiment ∈ LABELS) := by
  constructor
  · intro h
    rcases h with h | h <;> simp [predict_sentiment, h]
  · intro h
    have h1 : ¬(text = "") := fun hx => h (Or.inl hx)
    have h2 : ¬(strTrim text = "") := fun hx => h (Or.inr hx)
    simp only [predict_sentiment, h1, h2]
    simp only [decide_eq_true_eq] at *
    rw [if_neg]
    · exact getD_argmax3_mem _ _ _
    · simp [h1, h2]

theorem predict_sentiment_blank_neutral_else_label_witness :
    predict_sentiment alwaysPositive "  " = { sentiment := "Neutral", confidence := 0 } ∧
    (predict_sentiment alwaysPositive "ok").sentiment ∈ LABELS :=
  ⟨(predict_sentiment_blank_neutral_else_label alwaysPositive "  ").1 (Or.inr (by decide)),
   (predict_sentiment_blank_neutral_else_label alwaysPositive "ok").2 (by decide)⟩

/-! ## Claim C7 — administrative purge -/

/-- Claim C7: the purge deletes exactly the unprocessed rows of the given
`source_ref` (survivors are a sublist of the store, every processed row and
every row of another `source_ref` survives, every surviving row was already
stored and is not an unprocessed row of that `source_ref`), the returned
`deleted_count` is the number of rows matching the deletion filter and
`remaining_count` is the number of rows for that `source_ref` afterwards; on
the 3-unprocessed/2-processed store the result is (3, 2). -/
theorem delete_unprocessed_spec (db : DB) (ref : String) :
    ((deleteUnprocessed db ref).1.rows.Sublist db.rows) ∧
    (∀ c ∈ db.rows, ¬(c.source_ref = ref ∧ c.is_processed = false) →
      c ∈ (deleteUnprocessed db ref).1.rows) ∧
    (∀ c ∈ (deleteUnprocessed db ref).1.rows,
      c ∈ db.rows ∧ ¬(c.source_ref = ref ∧ c.is_processed = false)) ∧
    ((deleteUnprocessed db ref).2.1 =
      (db.rows.filter fun c => c.source_ref = ref && c.is_processed = false).length) ∧
    ((deleteUnprocessed db ref).2.2 =
      ((deleteUnprocessed db ref).1.rows.filter fun c => c.source_ref = ref).length) ∧
    (deleteUnprocessed purgeDB "https://example.org/p").2 = (3, 2) := by
  refine ⟨?_, ?_, ?_, rfl, rfl, by decide⟩
  · exact List.filter_sublist _
  · intro c hc hnot
    simp only [deleteUnprocessed, List.mem_filter]
    refine ⟨hc, ?_⟩
    simp only [Bool.not_eq_true', Bool.and_eq_false_iff]
    by_cases h1 : c.source_ref = ref
    · right
      simp only [decide_eq_false_iff_not]
      intro h2
      exact hnot ⟨h1, h2⟩
    · left
      simp [h1]
  · intro c hc
    simp only [deleteUnprocessed, List.mem_filter] at hc
    refine ⟨hc.1, ?_⟩
    intro hcon
    have := hc.2
    simp [hcon.1, hcon.2] at this

theorem delete_unprocessed_spec_witness :
    procItem 4 "Positive" "d" ∈
      (deleteUnprocessed purgeDB "https://example.org/p").1.rows :=
  (delete_unprocessed_spec purgeDB "https://example.org/p").2.1
    (procItem 4 "Positive" "d") (by decide) (by decide)

/-! ## Claim C6 — agreement scoring -/

theorem agreement_fold_inv (probs : String → ℚ × ℚ × ℚ) (l : List Content)
    (st : Nat × Nat × Nat × List MismatchSample) (h : st.1 = st.2.1 + st.2.2.1) :
    (l.foldl (agreementStep probs) st).1 =
      (l.foldl (agreementStep probs) st).2.1 +
        (l.foldl (agreementStep probs) st).2.2.1 := by
  induction l generalizing st with
  | nil => exact h
  | cons c rest ih =>
    simp only [List.foldl_cons]
    apply ih
    unfold agreementStep
    split <;> simp <;> omega

/-- Claim C6: the agreement report satisfies
`total_samples = matches + mismatches`; `agreement_percentage` is
`matches / total * 100` rounded to two decimal places when the total is
positive and `0` when it is zero; and on the 10-sample store with 7 matching
labels it is exactly `70.0`. -/
theorem agreement_report_spec (db : DB) (limit : Option Nat)
    (probs : String → ℚ × ℚ × ℚ) :
    ((llm_vs_model_sentiment db limit probs).total_samples =
      (llm_vs_model_sentiment db limit probs).match_count +
        (llm_vs_model_sentiment db limit probs).mismatch_count) ∧
    ((llm_vs_model_sentiment db limit probs).agreement_percentage =
      if 0 < (llm_vs_model_sentiment db limit probs).total_samples then
        pyRound (((llm_vs_model_sentiment db limit probs).match_count : ℚ) /
          ((llm_vs_model_sentiment db limit probs).total_samples : ℚ) * 100) 2
      else 0) ∧
    (llm_vs_model_sentiment agreeDB none alwaysPositive).match_count = 7 ∧
    (llm_vs_model_sentiment agreeDB none alwaysPositive).total_samples = 10 ∧
    (llm_vs_model_sentiment agreeDB none alwaysPositive).agreement_percentage = 70 := by
  refine ⟨?_, rfl, by decide, by decide, ?_⟩
  · exact agreement_fold_inv probs _ (0, 0, 0, []) rfl
  · have hform : (llm_vs_model_sentiment agreeDB none alwaysPositive).agreement_percentage =
        if 0 < (llm_vs_model_sentiment agreeDB none alwaysPositive).total_samples then
          pyRound (((llm_vs_model_sentiment agreeDB none alwaysPositive).match_count : ℚ) /
            ((llm_vs_model_sentiment agreeDB none alwaysPositive).total_samples : ℚ) * 100) 2
        else 0 := rfl
    have h7 : (llm_vs_model_sentiment agreeDB none alwaysPositive).match_count = 7 := by decide
    have h10 : (llm_vs_model_sentiment agreeDB none alwaysPositive).total_samples = 10 := by
      decide
    rw [hform, h7, h10, if_pos (by norm_num)]
    have h70 : ((7 : ℕ) : ℚ) / ((10 : ℕ) : ℚ) * 100 = ((70 : ℤ) : ℚ) := by norm_num
    rw [h70, pyRound_intCast]
    norm_num

/-! ## Claim C9 — bounded mismatch preview -/

theorem agreement_samples_origin (probs : String → ℚ × ℚ × ℚ) (l : List Content)
    (st : Nat × Nat × Nat × List MismatchSample) :
    ∀ e ∈ (l.foldl (agreementStep probs) st).2.2.2,
      e ∈ st.2.2.2 ∨ ∃ c ∈ l,
        e = { id := c.id, llm_sentiment := c.sentiment.getD "",
              model_sentiment :=
                (predict_sentiment probs (c.translated_text.getD "")).sentiment,
              text := strTake (c.translated_text.getD "") 200 } := by
  induction l generalizing st with
  | nil => intro e he; exact Or.inl he
  | cons c rest ih =>
    intro e he
    simp only [List.foldl_cons] at he
    rcases ih (agreementStep probs st c) e he with h | h
    · unfold agreementStep at h
      split at h
      · exact Or.inl h
      · simp only [List.mem_append, List.mem_singleton] at h
        rcases h with h | h
        · exact Or.inl h
        · exact Or.inr ⟨c, List.mem_cons_self _ _, h⟩
    · rcases h with ⟨c2, hc2, he2⟩
      exact Or.inr ⟨c2, List.mem_cons_of_mem _ hc2, he2⟩

theorem agreement_records_sub (db : DB) (limit : Option Nat) :
    (match limit with
      | some l => if l ≠ 0 then (eligibleAgreement db).take l else eligibleAgreement db
      | none => eligibleAgreement db) ⊆ eligibleAgreement db := by
  match limit with
  | none => exact fun _ h => h
  | some l =>
    dsimp only
    split
    · exact List.take_subset _ _
    · exact fun _ h => h

/-- Claim C9: the mismatch preview of the agreement report never exceeds five
entries, and each previewed entry's text is the item's `translated_text`
truncated to 200 characters. -/
theorem mismatch_preview_bounded (db : DB) (limit : Option Nat)
    (probs : String → ℚ × ℚ × ℚ) :
    (llm_vs_model_sentiment db limit probs).sample_mismatches.length ≤ 5 ∧
    ∀ e ∈ (llm_vs_model_sentiment db limit probs).sample_mismatches,
      ∃ c ∈ db.rows, c.id = e.id ∧
        ∃ t, c.translated_text = some t ∧ e.text = strTake t 200 := by
  constructor
  · exact List.length_take_le 5 _
  · intro e he
    have he2 := List.mem_of_mem_take he
    rcases agreement_samples_origin probs _ (0, 0, 0, []) e he2 with h | h
    · simp at h
    · rcases h with ⟨c, hc, he3⟩
      have hcel : c ∈ eligibleAgreement db := agreement_records_sub db limit hc
      have hcrow : c ∈ db.rows := List.mem_of_mem_filter hcel
      have hsome : c.translated_text.isSome = true := by
        have := (List.mem_filter.mp hcel).2
        simp only [Bool.and_eq_true] at this
        exact this.1
      rcases Option.isSome_iff_exists.mp hsome with ⟨t, ht⟩
      refine ⟨c, hcrow, ?_, t, ht, ?_⟩
      · rw [he3]
      · rw [he3, ht]
        rfl

theorem mismatch_preview_bounded_witness :
    ∃ c ∈ agreeDB.rows,
      c.id = ({ id := 8, llm_sentiment := "Negative", model_sentiment := "Positive",
                text := "t8" } : MismatchSample).id ∧
      ∃ t, c.translated_text = some t ∧
        ({ id := 8, llm_sentiment := "Negative", model_sentiment := "Positive",
           text := "t8" } : MismatchSample).text = strTake t 200 :=
  (mismatch_preview_bounded agreeDB none alwaysPositive).2
    { id := 8, llm_sentiment := "Negative", model_sentiment := "Positive", text := "t8" }
    (by decide)

/-! ## Claim C8 — per-language translation-consistency report -/

/-- Claim C8: for every tracked language, a language with no eligible
processed items reports exactly `{count: 0, average_similarity: 0.0,
samples: []}`; in general the language's report uses at most two sampled
items, its `count` equals the number of sampled items (the minimum of the
bound and the number of eligible items) and its `average_similarity` is the
arithmetic mean of the per-item similarity scores (reported, like the
per-item scores, at the 4-decimal precision the code rounds to). -/
theorem translation_consistency_spec (db : DB)
    (translate : String → String → String) (cosSim : String → String → ℚ)
    (lang code : String) (hmem : (lang, code) ∈ LANGUAGE_MAP) :
    ((eligibleForLang db lang).isEmpty = true →
      (lang, ({ count := 0, average_similarity := 0, samples := [] } : LangReport)) ∈
        translation_consistency_check db translate cosSim) ∧
    ∃ rep, (lang, rep) ∈ translation_consistency_check db translate cosSim ∧
      rep.count = rep.samples.length ∧
      rep.count ≤ 2 ∧
      rep.count = min 2 (eligibleForLang db lang).length ∧
      rep.average_similarity =
        pyRound (if rep.samples.isEmpty then 0
          else (rep.samples.map LangSample.similarity).sum / (rep.samples.length : ℚ)) 4 := by
  have hmap : ∀ rep2, rep2 = ((eligibleForLang db lang).take 2).map
      (fun r => ({ content_id := r.id,
                   similarity := pyRound (cosSim r.original_text
                     (translate (r.translated_text.getD "") code)) 4 } : LangSample)) →
      (lang, ({ count := rep2.length,
                average_similarity := pyRound (if rep2.isEmpty then 0
                  else (rep2.map LangSample.similarity).sum / (rep2.length : ℚ)) 4,
                samples := rep2 } : LangReport)) ∈
        translation_consistency_check db translate cosSim := by
    intro rep2 hrep2
    unfold translation_consistency_check
    refine List.mem_map.mpr ⟨(lang, code), hmem, ?_⟩
    subst hrep2
    rfl
  constructor
  · intro hempty
    have h0 : eligibleForLang db lang = [] := List.isEmpty_iff.mp hempty
    have := hmap _ rfl
    rw [h0] at this
    simpa [pyRound_zero] using this
  · refine ⟨_, hmap _ rfl, rfl, ?_, ?_, rfl⟩
    · rw [List.length_map, List.length_take]
      exact min_le_left _ _
    · rw [List.length_map, List.length_take]

theorem translation_consistency_spec_witness :
    ("Marathi", ({ count := 0, average_similarity := 0, samples := [] } : LangReport)) ∈
      translation_consistency_check { rows := [], next_id := 1 }
        (fun t _ => t) (fun _ _ => 0) :=
  (translation_consistency_spec { rows := [], next_id := 1 } (fun t _ => t)
    (fun _ _ => 0) "Marathi" "mr" (by decide)).1 (by decide)

/-! ## Scheduler update lemmas (shared by the C1 and C4 theorems) -/

theorem fetchUnprocessed_sublist (db : DB) : (fetchUnprocessed db).Sublist db.rows :=
  (List.take_sublist _ _).trans (List.filter_sublist _)

theorem fetchUnprocessed_length_le (db : DB) :
    (fetchUnprocessed db).length ≤ BATCH_SIZE := by
  unfold fetchUnprocessed
  exact (List.length_take_le _ _)

theorem fetchUnprocessed_ids_nodup (db : DB) (hnd : NoDupIds db) :
    ((fetchUnprocessed db).map Content.id).Nodup :=
  hnd.sublist ((fetchUnprocessed_sublist db).map Content.id)

theorem zip_map_fst {α β : Type} (l : List α) (l2 : List β) :
    (l.zip l2).map Prod.fst = l.take l2.length := by
  induction l generalizing l2 with
  | nil => simp
  | cons x xs ih =>
    cases l2 with
    | nil => simp
    | cons y ys => simp [ih]

theorem pairs_find?_eq_none (pairs : List (Content × AnnotationResult)) (c : Content)
    (h : ∀ p ∈ pairs, p.1.id ≠ c.id) :
    pairs.find? (fun p => p.1.id = c.id) = none := by
  rw [List.find?_eq_none]
  intro p hp
  simpa using h p hp

theorem pairs_find?_eq_self (pairs : List (Content × AnnotationResult))
    (c : Content) (r : AnnotationResult)
    (hnd : (pairs.map (fun p => p.1.id)).Nodup) (hmem : (c, r) ∈ pairs) :
    pairs.find? (fun p => p.1.id = c.id) = some (c, r) := by
  induction pairs with
  | nil => simp at hmem
  | cons p rest ih =>
    simp only [List.map_cons, List.nodup_cons] at hnd
    rcases List.mem_cons.mp hmem with h | h
    · subst h
      simp [List.find?]
    · have hne : p.1.id ≠ c.id := by
        intro he
        exact hnd.1 (he ▸ (List.mem_map.mpr ⟨(c, r), h, rfl⟩))
      rw [List.find?, decide_eq_false hne]
      exact ih hnd.2 h

theorem updateRows_mem_frame (rows : List Content)
    (pairs : List (Content × AnnotationResult)) (now : Nat) (c : Content)
    (hc : c ∈ rows) (h : ∀ p ∈ pairs, p.1.id ≠ c.id) :
    c ∈ updateRows rows pairs now := by
  unfold updateRows
  refine List.mem_map.mpr ⟨c, hc, ?_⟩
  rw [pairs_find?_eq_none pairs c h]

theorem updateRows_mem_pair (rows : List Content)
    (pairs : List (Content × AnnotationResult)) (now : Nat)
    (c : Content) (r : AnnotationResult)
    (hnd : (pairs.map (fun p => p.1.id)).Nodup)
    (hc : c ∈ rows) (hp : (c, r) ∈ pairs) :
    applyResult c r now ∈ updateRows rows pairs now := by
  unfold updateRows
  refine List.mem_map.mpr ⟨c, hc, ?_⟩
  rw [pairs_find?_eq_self pairs c r hnd hp]

theorem zip_pairs_ids_nodup (db : DB) (hnd : NoDupIds db)
    (rs : List AnnotationResult) :
    (((fetchUnprocessed db).zip rs).map (fun p => p.1.id)).Nodup := by
  have h1 : ((fetchUnprocessed db).zip rs).map (fun p => p.1.id) =
      (((fetchUnprocessed db).zip rs).map Prod.fst).map Content.id := by
    rw [List.map_map]; rfl
  rw [h1, zip_map_fst]
  exact (fetchUnprocessed_ids_nodup db hnd).sublist
    ((List.take_sublist _ _).map Content.id)

theorem zip_pair_id_mem_fetch_ids (db : DB) (rs : List AnnotationResult)
    (p : Content × AnnotationResult) (hp : p ∈ (fetchUnprocessed db).zip rs) :
    p.1.id ∈ (fetchUnprocessed db).map Content.id :=
  List.mem_map.mpr ⟨p.1, (List.of_mem_zip hp).1, rfl⟩

/-! ## Claim C1 — failure handling of a scheduler chunk -/

/-- Claim C1 counterexample: the chunk fetched from `exDB2` has two items,
the annotation call returns a single-element result list (a count mismatch),
and yet the first item of the chunk is marked processed, with annotation
fields and timestamp written. -/
theorem process_mismatch_counterexample :
    ([fullResult "x"].length ≠ (fetchUnprocessed exDB2).length) ∧
    ∃ c ∈ (processUnprocessedContent exDB2 (some [fullResult "x"]) 9).1.rows,
      c.is_processed = true ∧ c.processed_at.isSome = true ∧ c.aspect.isSome = true := by
  decide

/-- Claim C1 (amended): when the annotation call yields no result (`None` or
an empty list) the store is untouched and the run reports the error status;
when it yields a non-empty result list the scheduler performs no length
check — the chunk items and the results are zipped positionally (silently
truncating to the shorter list), every zipped item is written back as
processed, and every row whose id is not among the zipped pairs is stored
unchanged. -/
theorem process_failure_and_truncation (db : DB)
    (res : Option (List AnnotationResult)) (now : Nat) (hnd : NoDupIds db) :
    ((res = none ∨ res = some []) →
      processUnprocessedContent db res now = (db, "Error processing batch")) ∧
    (∀ rs, res = some rs → rs ≠ [] →
      ((processUnprocessedContent db res now).2 = "Processing complete") ∧
      (∀ p ∈ (fetchUnprocessed db).zip rs,
        applyResult p.1 p.2 now ∈ (processUnprocessedContent db res now).1.rows) ∧
      (∀ c ∈ db.rows, (∀ p ∈ (fetchUnprocessed db).zip rs, p.1.id ≠ c.id) →
        c ∈ (processUnprocessedContent db res now).1.rows)) := by
  constructor
  · rintro (h | h) <;> subst h <;> rfl
  · rintro rs rfl hne
    have hempty : rs.isEmpty = false := by
      cases rs with
      | nil => exact absurd rfl hne
      | cons a l => rfl
    refine ⟨?_, ?_, ?_⟩
    · simp [processUnprocessedContent, hempty]
    · intro p hp
      simp only [processUnprocessedContent, hempty, Bool.false_eq_true, if_false]
      have := updateRows_mem_pair db.rows ((fetchUnprocessed db).zip rs) now p.1 p.2
        (zip_pairs_ids_nodup db hnd rs)
        ((fetchUnprocessed_sublist db).subset (List.of_mem_zip hp).1) hp
      exact this
    · intro c hc hneq
      simp only [processUnprocessedContent, hempty, Bool.false_eq_true, if_false]
      exact updateRows_mem_frame db.rows _ now c hc hneq

theorem process_failure_and_truncation_witness :
    processUnprocessedContent exDB2 none 9 = (exDB2, "Error processing batch") :=
  (process_failure_and_truncation exDB2 none 9 (by decide)).1 (Or.inl rfl)

/-! ## Claim C4 — one chunk per scheduler run -/

/-- Claim C4 counterexample: on a store with six unprocessed items and an
annotation client that always succeeds, the algorithm the spec describes
(`specSchedulerRun`: fetch all unprocessed items, chunk them, process every
chunk) processes all six, but `process_unprocessed_content` reports
`"Processing complete"` while leaving the sixth item unprocessed — the run
fetches only a single `BATCH_SIZE` chunk and has no chunk loop. -/
theorem scheduler_single_chunk_counterexample :
    ((specSchedulerRun exDB6 exOracle 9).rows.map Content.is_processed =
      [true, true, true, true, true, true]) ∧
    ((processUnprocessedContent exDB6
        (exOracle ((fetchUnprocessed exDB6).map Content.original_text)) 9).2 =
      "Processing complete") ∧
    ((processUnprocessedContent exDB6
        (exOracle ((fetchUnprocessed exDB6).map Content.original_text)) 9).1.rows.map
      Content.is_processed = [true, true, true, true, true, false]) := by
  decide

/-- Claim C4 (amended): a single scheduler run selects at most `BATCH_SIZE`
(= 5) unprocessed items — one chunk; the fetch limit *is* the batch size and
there is no partitioning loop — and makes exactly one annotation call.  A
failed call leaves the store unchanged; every row outside the fetched chunk
is stored unchanged in any case; and a successful same-length reply marks
every fetched item processed.  Unprocessed items beyond the first five are
not attempted in that run. -/
theorem process_single_chunk (db : DB) (res : Option (List AnnotationResult))
    (now : Nat) (hnd : NoDupIds db) :
    ((fetchUnprocessed db).length ≤ BATCH_SIZE) ∧
    ((res = none ∨ res = some []) → (processUnprocessedContent db res now).1 = db) ∧
    (∀ c ∈ db.rows, c.id ∉ (fetchUnprocessed db).map Content.id →
      c ∈ (processUnprocessedContent db res now).1.rows) ∧
    (∀ rs, res = some rs → rs ≠ [] →
      ∀ p ∈ (fetchUnprocessed db).zip rs,
        applyResult p.1 p.2 now ∈ (processUnprocessedContent db res now).1.rows) := by
  refine ⟨fetchUnprocessed_length_le db, ?_, ?_, ?_⟩
  · rintro (h | h) <;> subst h <;> rfl
  · intro c hc hnotin
    match res with
    | none => exact hc
    | some rs =>
      cases hrs : rs.isEmpty with
      | true => simp [processUnprocessedContent, hrs]; exact hc
      | false =>
        simp only [processUnprocessedContent, hrs, Bool.false_eq_true, if_false]
        refine updateRows_mem_frame db.rows _ now c hc ?_
        intro p hp he
        exact hnotin (he ▸ zip_pair_id_mem_fetch_ids db rs p hp)
  · rintro rs rfl hne p hp
    have hempty : rs.isEmpty = false := by
      cases rs with
      | nil => exact absurd rfl hne
      | cons a l => rfl
    simp only [processUnprocessedContent, hempty, Bool.false_eq_true, if_false]
    exact updateRows_mem_pair db.rows ((fetchUnprocessed db).zip rs) now p.1 p.2
      (zip_pairs_ids_nodup db hnd rs)
      ((fetchUnprocessed_sublist db).subset (List.of_mem_zip hp).1) hp

theorem process_single_chunk_witness :
    (processUnprocessedContent exDB6 none 9).1 = exDB6 :=
  (process_single_chunk exDB6 none 9 (by decide)).2.1 (Or.inl rfl)

/-! ## Claim C2 — processing-state invariant -/

theorem annotationOK_applyResult (c : Content) (r : AnnotationResult) (now : Nat)
    (hr : r.detected_language.isSome ∧ r.translated_text.isSome ∧
      r.aspect.isSome ∧ r.sentiment.isSome) :
    annotationOK (applyResult c r now) := by
  unfold annotationOK applyResult
  refine ⟨by simp, fun _ => ⟨hr.1, hr.2.1, hr.2.2.1, hr.2.2.2⟩, fun h => by simp at h⟩

theorem updateRows_preserves_OK (rows : List Content)
    (pairs : List (Content × AnnotationResult)) (now : Nat)
    (hrows : ∀ c ∈ rows, annotationOK c)
    (hres : ∀ p ∈ pairs, p.2.detected_language.isSome ∧ p.2.translated_text.isSome ∧
      p.2.aspect.isSome ∧ p.2.sentiment.isSome) :
    ∀ c ∈ updateRows rows pairs now, annotationOK c := by
  intro c hc
  unfold updateRows at hc
  rcases List.mem_map.mp hc with ⟨a, ha, hfa⟩
  cases hfind : pairs.find? (fun p => p.1.id = a.id) with
  | none =>
    rw [hfind] at hfa
    exact hfa ▸ hrows a ha
  | some p =>
    rw [hfind] at hfa
    have hp : p ∈ pairs := List.mem_of_find?_eq_some hfind
    exact hfa ▸ annotationOK_applyResult p.1 p.2 now (hres p hp)

theorem process_preserves_OK (db : DB) (res : Option (List AnnotationResult))
    (now : Nat) (h : ∀ c ∈ db.rows, annotationOK c)
    (hcl : clientContract ((fetchUnprocessed db).map Content.original_text) res) :
    ∀ c ∈ (processUnprocessedContent db res now).1.rows, annotationOK c := by
  match res with
  | none => exact h
  | some rs =>
    cases hrs : rs.isEmpty with
    | true =>
      simp only [processUnprocessedContent, hrs, if_true]
      exact h
    | false =>
      simp only [processUnprocessedContent, hrs, Bool.false_eq_true, if_false]
      refine updateRows_preserves_OK db.rows _ now h ?_
      intro p hp
      have hr := (hcl rs rfl).2 p.2 (List.of_mem_zip hp).2
      exact ⟨hr.1, hr.2.1, hr.2.2.1, hr.2.2.2.1⟩

theorem annotationOK_fresh_insert (db : DB) (row : RawRow) :
    ∀ c ∈ (insertFromRow db row).rows, (∀ c2 ∈ db.rows, annotationOK c2) →
      annotationOK c := by
  intro c hc h
  unfold insertFromRow at hc
  rcases List.mem_append.mp hc with h2 | h2
  · exact h c h2
  · rcases List.mem_singleton.mp h2 with rfl
    unfold annotationOK
    refine ⟨by simp, fun hx => by simp at hx, fun _ => ⟨rfl, rfl, rfl, rfl⟩⟩

theorem reddit_foldl_preserves_OK (rows : List RawRow) (acc : DB × Nat)
    (h : ∀ c ∈ acc.1.rows, annotationOK c) :
    ∀ c ∈ (rows.foldl redditStep acc).1.rows, annotationOK c := by
  induction rows generalizing acc with
  | nil => exact h
  | cons row rest ih =>
    simp only [List.foldl_cons]
    refine ih (redditStep acc row) ?_
    unfold redditStep
    split
    · exact h
    · intro c hc
      exact annotationOK_fresh_insert acc.1 row c hc h

theorem reddit_preserves_OK (db : DB) (rows : List RawRow)
    (h : ∀ c ∈ db.rows, annotationOK c) :
    ∀ c ∈ (ingestRedditToDb db rows).1.rows, annotationOK c := by
  unfold ingestRedditToDb
  split
  · exact h
  · exact reddit_foldl_preserves_OK rows (db, 0) h

theorem youtube_foldl_preserves_OK (comments : List YtComment) (videoUrl : String)
    (locationName : Option String) (now : Nat) (acc : DB × Nat)
    (h : ∀ c ∈ acc.1.rows, annotationOK c) :
    ∀ c ∈ (comments.foldl (youtubeStep videoUrl locationName now) acc).1.rows,
      annotationOK c := by
  induction comments generalizing acc with
  | nil => exact h
  | cons cm rest ih =>
    simp only [List.foldl_cons]
    refine ih (youtubeStep videoUrl locationName now acc cm) ?_
    intro c hc
    unfold youtubeStep at hc
    rcases List.mem_append.mp hc with h2 | h2
    · exact h c h2
    · rcases List.mem_singleton.mp h2 with rfl
      unfold annotationOK
      refine ⟨by simp, fun hx => by simp at hx, fun _ => ⟨rfl, rfl, rfl, rfl⟩⟩

theorem purge_preserves_OK (db : DB) (ref : String)
    (h : ∀ c ∈ db.rows, annotationOK c) :
    ∀ c ∈ (deleteUnprocessed db ref).1.rows, annotationOK c := by
  intro c hc
  exact h c (List.mem_of_mem_filter hc)

/-- Claim C2 (amended): after any sequence of ingestion, scheduler and purge
operations (with annotation replies honouring the client contract), every
stored row satisfies: `is_processed` is true iff `processed_at` is set, a
processed row has all four *persisted* annotation columns
(`original_language`, `translated_text`, `aspect`, `sentiment`) non-null, and
an unprocessed row has them all null — no partially-annotated row is ever
stored.  (`confidence_score` and `category` are not columns of the model and
are never persisted; see the counterexample.) -/
theorem store_annotation_invariant (db : DB) (h : Reachable db) :
    ∀ c ∈ db.rows, annotationOK c := by
  induction h with
  | init => intro c hc; simp at hc
  | reddit db rows _ ih => exact reddit_preserves_OK db rows ih
  | youtube db comments videoUrl locationName now _ ih =>
    exact youtube_foldl_preserves_OK comments videoUrl locationName now (db, 0) ih
  | process db res now _ hcl ih => exact process_preserves_OK db res now ih hcl
  | purge db ref _ ih => exact purge_preserves_OK db ref ih

theorem store_annotation_invariant_witness :
    annotationOK (processedOnceDB.rows.getD 0 (unprocItem 99 "z")) :=
  store_annotation_invariant processedOnceDB
    (Reachable.process _ (some [fullResult "Potholes everywhere."]) 5
      (Reachable.reddit { rows := [], next_id := 1 } [exRawRow] Reachable.init)
      (by intro rs hrs; cases hrs; exact ⟨by decide, by decide⟩))
    (processedOnceDB.rows.getD 0 (unprocItem 99 "z")) (by decide)

/-- Claim C2 counterexample: a store reached by ingesting one Reddit item and
running the scheduler with a complete annotation result (carrying both a
confidence score and a category) contains a processed row whose spec-level
view has `confidence_score = none` and `category = none` — the active
`Content` model declares no such columns, so the claimed "all annotation
fields non-null" cannot hold for any processed item. -/
theorem annotation_fields_counterexample :
    (fullResult "Potholes everywhere.").confidence_score.isSome = true ∧
    (fullResult "Potholes everywhere.").category.isSome = true ∧
    ∃ c ∈ processedOnceDB.rows, c.is_processed = true ∧
      c.processed_at.isSome = true ∧
      (specView c).confidence_score = none ∧ (specView c).category = none := by
  refine ⟨rfl, rfl, by decide⟩

theorem reddit_foldl_rows_grow (rows : List RawRow) (acc : DB × Nat) :
    acc.1.rows.IsPrefix (rows.foldl redditStep acc).1.rows := by
  induction rows generalizing acc with
  | nil => exact List.prefix_rfl
  | cons row rest ih =>
    simp only [List.foldl_cons]
    refine List.IsPrefix.trans ?_ (ih (redditStep acc row))
    unfold redditStep
    split
    · exact List.prefix_rfl
    · simp only [insertFromRow]
      exact List.prefix_append _ _

theorem redditExists_mono (rows t : List Content) (text : String)
    (h : redditExists rows text = true) : redditExists (rows ++ t) text = true := by
  unfold redditExists at h ⊢
  rw [List.any_append, h]
  rfl

theorem reddit_foldl_exists (rows : List RawRow) (acc : DB × Nat) (r : RawRow)
    (hmem : r ∈ rows) (hsrc : r.source = "reddit") :
    redditExists (rows.foldl redditStep acc).1.rows r.original_text = true := by
  induction rows generalizing acc with
  | nil => simp at hmem
  | cons row rest ih =>
    rcases List.mem_cons.mp hmem with h | h
    · subst h
      simp only [List.foldl_cons]
      have hbase : redditExists (redditStep acc r).1.rows r.original_text = true := by
        unfold redditStep
        by_cases hex : redditExists acc.1.rows r.original_text = true
        · rw [if_pos hex]; exact hex
        · rw [if_neg hex]
          unfold redditExists insertFromRow
          rw [List.any_append]
          have : decide (r.source = "reddit") = true := by simp [hsrc]
          simp [hsrc]
      rcases reddit_foldl_rows_grow rest (redditStep acc r) with ⟨t, ht⟩
      rw [← ht]
      exact redditExists_mono _ t _ hbase
    · simp only [List.foldl_cons]
      exact ih (redditStep acc row) h

theorem reddit_foldl_skip_all (rows : List RawRow) (acc : DB × Nat)
    (h : ∀ r ∈ rows, redditExists acc.1.rows r.original_text = true) :
    rows.foldl redditStep acc = acc := by
  induction rows with
  | nil => rfl
  | cons row rest ih =>
    simp only [List.foldl_cons]
    have hstep : redditStep acc row = acc := by
      unfold redditStep
      rw [if_pos (h row (List.mem_cons_self _ _))]
    rw [hstep]
    exact ih fun r hr => h r (List.mem_cons_of_mem _ hr)

/-- Claim C3 (amended): Reddit ingestion is idempotent on
`(source, original_text)` — re-ingesting rows that were already ingested (all
carrying source `"reddit"`, as the scraper produces them) inserts nothing and
leaves the store unchanged, so two ingestions of the same raw item leave
exactly one stored row; YouTube ingestion by contrast performs no store-level
deduplication (see the counterexample). -/
theorem reddit_ingest_idempotent (db : DB) (rows : List RawRow)
    (hsrc : ∀ r ∈ rows, r.source = "reddit") :
    ingestRedditToDb (ingestRedditToDb db rows).1 rows =
      ((ingestRedditToDb db rows).1, 0) ∧
    ((ingestRedditToDb (ingestRedditToDb { rows := [], next_id := 1 } [exRawRow]).1
        [exRawRow]).1.rows.filter fun c =>
          c.source = "reddit" && c.original_text = exRawRow.original_text).length = 1 := by
  refine ⟨?_, by decide⟩
  cases hrows : rows.isEmpty with
  | true =>
    have h0 : rows = [] := List.isEmpty_iff.mp hrows
    subst h0
    rfl
  | false =>
    have hne : rows.isEmpty = false := hrows
    unfold ingestRedditToDb
    rw [hne]
    simp only [Bool.false_eq_true, if_false]
    exact reddit_foldl_skip_all rows _ fun r hr =>
      reddit_foldl_exists rows (db, 0) r hr (hsrc r hr)

theorem reddit_ingest_idempotent_witness :
    ingestRedditToDb (ingestRedditToDb { rows := [], next_id := 1 } [exRawRow]).1
      [exRawRow] = ((ingestRedditToDb { rows := [], next_id := 1 } [exRawRow]).1, 0) :=
  (reddit_ingest_idempotent { rows := [], next_id := 1 } [exRawRow] (by decide)).1

/-- Claim C3 counterexample: ingesting the same scraped YouTube comment in
two separate calls stores it twice — `ingest_youtube_video` checks nothing
against the store, so ingestion is not idempotent for every source. -/
theorem youtube_ingest_not_idempotent :
    (((ingestYoutubeVideo
        (ingestYoutubeVideo { rows := [], next_id := 1 } [exComment] "u" none 0).1
        [exComment] "u" none 1).1.rows.filter fun c =>
          c.source = "youtube" && c.original_text = exComment.original_text).length = 2) ∧
    (2 : Nat) ≠ 1 := by
  decide

/-! ## Claim C5 — tree extraction -/

theorem strToLower_eq_empty_iff (s : String) : strToLower s = "" ↔ s = "" := by
  obtain ⟨l⟩ := s
  constructor
  · intro h
    have hd := congrArg String.data h
    simp only [strToLower] at hd
    have : l = [] := by simpa using hd
    simp [this]
  · intro h
    have hd : l = [] := congrArg String.data h
    subst hd
    rfl

theorem is_valid_comment_eq (b : String) (a : Option String) (d s : Bool) :
    is_valid_comment b a d s =
      (b ≠ "" && a ≠ some "AutoModerator" && !containsSub b "i am a bot" &&
        !d && !s) := by
  unfold is_valid_comment
  by_cases h1 : b = "" <;> by_cases h2 : a = some "AutoModerator" <;>
    by_cases h3 : containsSub b "i am a bot" = true <;> cases d <;> cases s <;>
    simp [h1, h2, h3]

theorem is_valid_eq_codeValid (k : String) (body author : Option String)
    (d s : Bool) (cu : String) (replies : RForest) :
    is_valid_comment (strToLower (body.getD "")) author d s =
      codeValid (.mk k body author d s cu replies) := by
  rw [is_valid_comment_eq]
  unfold codeValid
  have h : (decide ¬(strToLower (body.getD "") = "")) =
      (decide ¬(body.getD "" = "")) := by
    simp [strToLower_eq_empty_iff]
  rw [h]

mutual
theorem extractNode_spec (sr : String) (now : Nat) :
    ∀ (n : RNode) (st : List RawRow × List String), wfNode n = true →
      ((extractNode sr now n st).1.map RawRow.original_text,
        (extractNode sr now n st).2) =
        specWalkNode codeValid n (st.1.map RawRow.original_text, st.2)
  | .mk k body author d s cu replies, st, hwf => by
    have hk : k = "t1" ∧ wfForest replies = true := by
      have h := hwf
      unfold wfNode at h
      simpa using h
    unfold extractNode specWalkNode
    rw [if_neg (by simp [hk.1])]
    rw [← is_valid_eq_codeValid k body author d s cu replies]
    dsimp only
    by_cases hv : is_valid_comment (strToLower (body.getD "")) author d s = true
    · rw [if_pos hv, if_pos hv]
      by_cases hc : st.2.contains (strTrim (body.getD "")) = true
      · rw [if_pos hc, if_pos hc]
        exact extractForest_spec sr now replies st hk.2
      · rw [if_neg hc, if_neg hc]
        have h2 := extractForest_spec sr now replies
          (st.1 ++ [mkRedditRow sr now (strTrim (body.getD "")) cu],
            st.2 ++ [strTrim (body.getD "")]) hk.2
        rw [h2]
        simp [mkRedditRow]
    · rw [if_neg hv, if_neg hv]
      exact extractForest_spec sr now replies st hk.2

theorem extractForest_spec (sr : String) (now : Nat) :
    ∀ (f : RForest) (st : List RawRow × List String), wfForest f = true →
      ((extractForest sr now f st).1.map RawRow.original_text,
        (extractForest sr now f st).2) =
        specWalkForest codeValid f (st.1.map RawRow.original_text, st.2)
  | .nil, _, _ => rfl
  | .cons n rest, st, hwf => by
    have hk : wfNode n = true ∧ wfForest rest = true := by
      have h := hwf
      unfold wfForest at h
      simpa using h
    unfold extractForest specWalkForest
    rw [extractForest_spec sr now rest (extractNode sr now n st) hk.2,
      extractNode_spec sr now n st hk.1]
end

/-- Claim C5 (amended): on a well-formed comment tree (every node a `"t1"`
comment), the adapter emits exactly the trimmed bodies of the valid nodes in
depth-first order, deduplicated by exact text — where a node is valid iff its
body is non-empty **before** trimming (the source tests the raw, lowercased
body for emptiness), its author is not the known bot account, its lowercased
body does not contain the bot-disclaimer phrase, and it is neither
moderator-distinguished nor stickied; children of invalid nodes are still
visited. -/
theorem tree_extraction_amended (postUrl : String) (now : Nat) (f : RForest)
    (hwf : wfForest f = true) :
    (ingestRedditPost postUrl f now).map RawRow.original_text =
      (specWalkForest codeValid f ([], [])).1 := by
  unfold ingestRedditPost
  have h := extractForest_spec
    (strReplace (if strEndsWith postUrl ".json" then postUrl
      else strRStripSlash postUrl ++ ".json") ".json" "") now f ([], []) hwf
  have h1 := congrArg Prod.fst h
  simpa using h1

theorem tree_extraction_amended_witness :
    (ingestRedditPost "https://example.org/p" exTree 0).map RawRow.original_text =
      (specWalkForest codeValid exTree ([], [])).1 :=
  tree_extraction_amended "https://example.org/p" 0 exTree (by decide)

/-- Claim C5 counterexample: a well-formed single-node tree whose body is one
space.  Under the claim's validity predicate (body non-empty **after**
trimming) nothing is emitted, but the adapter emits the node — as the empty
string — because the source checks emptiness before trimming. -/
theorem tree_extraction_counterexample :
    wfForest wsTree = true ∧
    (specWalkForest claimValid wsTree ([], [])).1 = [] ∧
    (ingestRedditPost "https://example.org/p" wsTree 0).map RawRow.original_text =
      [""] := by
  decide

end SentimentInfra
